import Mathlib

/-!
Shallow embedding of the combat-simulation core of `enter_the_gungeon.py`
(classes `Vector2`, `Bullet`, `Gun`, `Player`, `Enemy`, `Room`, `Door`,
`HazardRoom`, `MultiRoomSystem`), together with theorems settling the
frozen claims about it.  Python floats are modelled as real numbers;
calls to the `random` module are modelled by oracle parameters supplying
the drawn values, so every theorem quantifies over all possible draws.
-/

namespace Gungeon

/-- Embedding of class `Vector2`: a 2-D vector with real coordinates. -/
@[ext] structure Vec2 where
  x : ℝ
  y : ℝ

/-- Embedding of `Vector2.__add__`. -/
noncomputable def Vec2.add (a b : Vec2) : Vec2 := ⟨a.x + b.x, a.y + b.y⟩

/-- Embedding of `Vector2.__sub__`. -/
noncomputable def Vec2.sub (a b : Vec2) : Vec2 := ⟨a.x - b.x, a.y - b.y⟩

/-- Embedding of `Vector2.__mul__` (scalar multiplication). -/
noncomputable def Vec2.smul (a : Vec2) (s : ℝ) : Vec2 := ⟨a.x * s, a.y * s⟩

/-- Length of a vector, as computed inside `Vector2.normalize`. -/
noncomputable def Vec2.length (a : Vec2) : ℝ := Real.sqrt (a.x ^ 2 + a.y ^ 2)

/-- Embedding of `Vector2.normalize`: divide by the length when it is
positive, otherwise return the zero vector. -/
noncomputable def Vec2.normalize (a : Vec2) : Vec2 :=
  if 0 < a.length then ⟨a.x / a.length, a.y / a.length⟩ else ⟨0, 0⟩

/-- Embedding of `Vector2.distance_to`. -/
noncomputable def Vec2.distance_to (a b : Vec2) : ℝ :=
  Real.sqrt ((a.x - b.x) ^ 2 + (a.y - b.y) ^ 2)

/-- Helper for evaluating square roots of perfect squares. -/
theorem sqrt_eval {a b : ℝ} (h : b ^ 2 = a) (hb : 0 ≤ b) : Real.sqrt a = b := by
  rw [← h]; exact Real.sqrt_sq hb

/-- Helper for evaluating concrete distances. -/
theorem distance_eval {x1 y1 x2 y2 d : ℝ}
    (h : (x1 - x2) ^ 2 + (y1 - y2) ^ 2 = d ^ 2) (hd : 0 ≤ d) :
    Vec2.distance_to ⟨x1, y1⟩ ⟨x2, y2⟩ = d := by
  unfold Vec2.distance_to
  exact sqrt_eval h.symm hd

/-- Embedding of class `Bullet` (constructor fields; the velocity is the
angle/speed decomposition done in `Bullet.__init__`). -/
structure Bullet where
  pos : Vec2
  velocity : Vec2
  damage : ℝ
  size : ℝ
  lifetime : ℝ
  age : ℝ

/-- Embedding of `Bullet.__init__`: position, velocity from angle and
speed, default size 4, lifetime 5, age 0. -/
noncomputable def mkBullet (x y angle speed damage : ℝ) (size : ℝ) : Bullet :=
  ⟨⟨x, y⟩, ⟨Real.cos angle * speed, Real.sin angle * speed⟩, damage, size, 5, 0⟩

/-- Embedding of class `Gun`.  `ammo = -1` denotes infinite ammo, as in the
source. -/
structure Gun where
  damage : ℝ
  fire_rate : ℝ
  bullet_speed : ℝ
  accuracy : ℝ
  ammo : ℤ
  pellets : ℕ
  fire_timer : ℝ

/-- Embedding of `Gun.can_fire`. -/
def Gun.can_fire (g : Gun) : Prop :=
  g.fire_timer ≤ 0 ∧ (0 < g.ammo ∨ g.ammo = -1)

noncomputable instance (g : Gun) : Decidable g.can_fire := by
  unfold Gun.can_fire; infer_instance

/-- Embedding of `Gun.fire`.  `rng i` is the value drawn by
`random.uniform(-spread, spread)` for pellet `i` (only used in the
single-bullet branch).  Returns the list of created bullets and the
updated gun state. -/
noncomputable def Gun.fire (g : Gun) (x y angle : ℝ) (rng : ℕ → ℝ) :
    List Bullet × Gun :=
  if g.can_fire then
    let g1 : Gun := { g with
      fire_timer := 1 / g.fire_rate,
      ammo := if 0 < g.ammo then g.ammo - 1 else g.ammo }
    let bullets := (List.range g.pellets).map (fun (i : ℕ) =>
      let pellet_angle :=
        if 1 < g.pellets then
          angle + ((i : ℝ) - ((g.pellets : ℝ) - 1) / 2) *
            (0.4 / ((g.pellets : ℝ) - 1))
        else
          angle + rng i
      mkBullet x y pellet_angle g.bullet_speed g.damage 4)
    (bullets, g1)
  else ([], g)

/-- Embedding of class `Player` (the fields owned by `Player.__init__`
that the simulation core reads or writes). -/
structure Player where
  pos : Vec2
  velocity : Vec2
  size : ℝ
  speed : ℝ
  health : ℝ
  max_health : ℝ
  armor : ℤ
  is_dodging : Bool
  dodge_timer : ℝ
  dodge_cooldown_timer : ℝ
  invulnerable : Bool
  damage_flash_timer : ℝ
  money : ℤ

/-- Embedding of `Player.take_damage`: when not invulnerable, armor (if
any) absorbs the hit, otherwise health drops clamped at 0; then the
player becomes invulnerable with a 0.6 s damage flash.  Returns the
updated player and whether damage was processed. -/
noncomputable def Player.take_damage (amount : ℝ) (p : Player) : Player × Bool :=
  if p.invulnerable = false then
    let p1 :=
      if 0 < p.armor then { p with armor := p.armor - 1 }
      else { p with health := max 0 (p.health - amount) }
    ({ p1 with invulnerable := true, damage_flash_timer := 0.6 }, true)
  else (p, false)

/-- Embedding of class `Door` (animation-relevant fields). -/
structure Door where
  pos : Vec2
  is_open : Bool
  open_progress : ℝ
  open_speed : ℝ

/-- Embedding of `Door.update`: progress moves toward 1 when a player is
nearby, else toward 0, clamped to `[0,1]`; `is_open` is the 0.5
threshold on the new progress. -/
noncomputable def Door.update (dt : ℝ) (player_nearby : Bool) (d : Door) : Door :=
  let target : ℝ := if player_nearby then 1 else 0
  let p :=
    if d.open_progress < target then min 1 (d.open_progress + d.open_speed * dt)
    else if target < d.open_progress then max 0 (d.open_progress - d.open_speed * dt)
    else d.open_progress
  { d with open_progress := p, is_open := decide (0.5 < p) }

/-- C9: a gun with `ammo = 0` produces no bullets and is returned
unchanged by `fire`: an out-of-ammo weapon is a silent no-op. -/
theorem gun_fire_out_of_ammo (g : Gun) (x y angle : ℝ) (rng : ℕ → ℝ)
    (h : g.ammo = 0) : g.fire x y angle rng = ([], g) := by
  unfold Gun.fire
  rw [if_neg]
  intro hc
  rcases hc with ⟨-, h2 | h2⟩ <;> rw [h] at h2 <;> omega

/-- Witness for C9 at a concrete out-of-ammo gun. -/
theorem gun_fire_out_of_ammo_witness :
    (Gun.mk 8 3 200 0.9 0 1 0).fire 0 0 0 (fun _ => 0) =
      ([], Gun.mk 8 3 200 0.9 0 1 0) :=
  gun_fire_out_of_ammo (Gun.mk 8 3 200 0.9 0 1 0) 0 0 0 (fun _ => 0) rfl

/-- C10: taking damage while not invulnerable with positive armor
decrements armor by one, leaves health unchanged whatever the damage
amount, and starts the invulnerability/damage-flash window. -/
theorem take_damage_armor_absorbs (amount : ℝ) (p : Player)
    (hinv : p.invulnerable = false) (harm : 0 < p.armor) :
    (Player.take_damage amount p).1.armor = p.armor - 1 ∧
    (Player.take_damage amount p).1.health = p.health ∧
    (Player.take_damage amount p).1.invulnerable = true ∧
    (Player.take_damage amount p).1.damage_flash_timer = 0.6 ∧
    (Player.take_damage amount p).2 = true := by
  unfold Player.take_damage
  rw [if_pos hinv, if_pos harm]
  exact ⟨rfl, rfl, rfl, rfl, rfl⟩

/-- Concrete player used in witnesses for C10. -/
noncomputable def playerC10 : Player :=
  ⟨⟨200, 200⟩, ⟨0, 0⟩, 8, 120, 100, 100, 2, false, 0, 0, false, 0, 0⟩

/-- Witness for C10 at a concrete armored player. -/
theorem take_damage_armor_absorbs_witness :
    playerC10.invulnerable = false ∧ 0 < playerC10.armor ∧
    ((Player.take_damage 50 playerC10).1.armor = playerC10.armor - 1 ∧
     (Player.take_damage 50 playerC10).1.health = playerC10.health ∧
     (Player.take_damage 50 playerC10).1.invulnerable = true ∧
     (Player.take_damage 50 playerC10).1.damage_flash_timer = 0.6 ∧
     (Player.take_damage 50 playerC10).2 = true) :=
  ⟨rfl, by decide, take_damage_armor_absorbs 50 playerC10 rfl (by decide)⟩

/-- C8: one `Door.update` with nonnegative `dt`, starting from progress
in `[0,1]` and nonnegative speed, keeps progress in `[0,1]`, moves it by
at most `open_speed * dt` toward 1 when a combatant is nearby and toward
0 otherwise, and sets `is_open` to the bare threshold
`open_progress > 0.5`. -/
theorem door_update_props (dt : ℝ) (nearby : Bool) (d : Door)
    (hdt : 0 ≤ dt) (hp0 : 0 ≤ d.open_progress) (hp1 : d.open_progress ≤ 1)
    (hs : 0 ≤ d.open_speed) :
    0 ≤ (d.update dt nearby).open_progress ∧
    (d.update dt nearby).open_progress ≤ 1 ∧
    |(d.update dt nearby).open_progress - d.open_progress| ≤ d.open_speed * dt ∧
    (nearby = true → d.open_progress ≤ (d.update dt nearby).open_progress) ∧
    (nearby = false → (d.update dt nearby).open_progress ≤ d.open_progress) ∧
    ((d.update dt nearby).is_open = true ↔ 0.5 < (d.update dt nearby).open_progress) := by
  have hsd : 0 ≤ d.open_speed * dt := mul_nonneg hs hdt
  simp only [Door.update]
  have htT : nearby = true → (if nearby = true then (1:ℝ) else 0) = 1 := by
    intro h; rw [if_pos h]
  have htF : nearby = false → (if nearby = true then (1:ℝ) else 0) = 0 := by
    intro h; rw [if_neg (by simp [h])]
  set t : ℝ := if nearby = true then (1:ℝ) else 0 with ht
  have ht0 : 0 ≤ t := by rw [ht]; split_ifs <;> norm_num
  have ht1 : t ≤ 1 := by rw [ht]; split_ifs <;> norm_num
  split_ifs with h1 h2
  · -- progress < target: move up, clamped by 1
    have hlo : d.open_progress ≤ min 1 (d.open_progress + d.open_speed * dt) :=
      le_min hp1 (by linarith)
    have hhi : min 1 (d.open_progress + d.open_speed * dt) ≤
        d.open_progress + d.open_speed * dt := min_le_right _ _
    refine ⟨le_trans hp0 hlo, min_le_left _ _, ?_, fun _ => hlo, ?_, by simp⟩
    · rw [abs_le]; constructor <;> linarith
    · intro hf
      exact absurd h1 (by rw [htF hf]; exact not_lt.mpr hp0)
  · -- target < progress: move down, clamped by 0
    have hlo : d.open_progress - d.open_speed * dt ≤
        max 0 (d.open_progress - d.open_speed * dt) := le_max_right _ _
    have hhi : max 0 (d.open_progress - d.open_speed * dt) ≤ d.open_progress :=
      max_le hp0 (by linarith)
    refine ⟨le_max_left _ _, le_trans hhi hp1, ?_, ?_, fun _ => hhi, by simp⟩
    · rw [abs_le]; constructor <;> linarith
    · intro htr
      exact absurd h2 (by rw [htT htr]; exact not_lt.mpr hp1)
  · -- progress = target: no change
    refine ⟨hp0, hp1, by simpa using hsd, fun _ => le_refl _, fun _ => le_refl _, by simp⟩

/-- Concrete door used in the C8 witness. -/
noncomputable def doorC8 : Door := ⟨⟨0, 0⟩, false, 0.4, 3⟩

/-- Witness for C8 at a concrete door with a nearby combatant. -/
theorem door_update_props_witness :
    (0:ℝ) ≤ 0.1 ∧ 0 ≤ doorC8.open_progress ∧ doorC8.open_progress ≤ 1 ∧
    0 ≤ doorC8.open_speed ∧
    (0 ≤ (doorC8.update 0.1 true).open_progress ∧
     (doorC8.update 0.1 true).open_progress ≤ 1 ∧
     |(doorC8.update 0.1 true).open_progress - doorC8.open_progress| ≤
       doorC8.open_speed * 0.1 ∧
     (true = true → doorC8.open_progress ≤ (doorC8.update 0.1 true).open_progress) ∧
     (true = false → (doorC8.update 0.1 true).open_progress ≤ doorC8.open_progress) ∧
     ((doorC8.update 0.1 true).is_open = true ↔
       0.5 < (doorC8.update 0.1 true).open_progress)) :=
  ⟨by norm_num, by norm_num [doorC8], by norm_num [doorC8], by norm_num [doorC8],
    door_update_props 0.1 true doorC8 (by norm_num) (by norm_num [doorC8])
      (by norm_num [doorC8]) (by norm_num [doorC8])⟩

/-- Tile coordinates of a world position, embedding the
`int(pos.x // 16), int(pos.y // 16)` pattern (Python floor division). -/
noncomputable def tileOf (p : Vec2) : ℤ × ℤ := (⌊p.x / 16⌋, ⌊p.y / 16⌋)

/-- Embedding of class `HazardRoom` (tile sets and completion flag). -/
structure HazardRoom where
  width : ℕ
  height : ℕ
  level : ℕ
  walls : Finset (ℤ × ℤ)
  floor_tiles : Finset (ℤ × ℤ)
  ditches : Finset (ℤ × ℤ)
  spikes : Finset (ℤ × ℤ)
  lava_tiles : Finset (ℤ × ℤ)
  challenge_complete : Bool

/-- Embedding of `HazardRoom.check_hazard_damage`: no effect while
invulnerable or dodging; a ditch tile zeroes health, a spike tile deals
20 through `take_damage`, a lava tile 15.  Returns the updated player
and whether hazard damage was processed. -/
noncomputable def HazardRoom.check_hazard_damage (hr : HazardRoom) (p : Player) :
    Player × Bool :=
  if p.invulnerable || p.is_dodging then (p, false)
  else if tileOf p.pos ∈ hr.ditches then ({ p with health := 0 }, true)
  else if tileOf p.pos ∈ hr.spikes then ((Player.take_damage 20 p).1, true)
  else if tileOf p.pos ∈ hr.lava_tiles then ((Player.take_damage 15 p).1, true)
  else (p, false)

/-- Concrete hazard room used for C2: one ditch tile at `(1,1)`. -/
noncomputable def hrC2 : HazardRoom := ⟨25, 20, 1, ∅, ∅, {(1, 1)}, ∅, ∅, false⟩

/-- Concrete player for the C2 counterexample: standing on the ditch
tile, not dodging, but invulnerable (for instance from a recent hit). -/
noncomputable def pC2 : Player :=
  ⟨⟨24, 24⟩, ⟨0, 0⟩, 8, 120, 100, 100, 0, false, 0, 0, true, 0.5, 0⟩

/-- Counterexample to C2 as stated: this player is on a ditch tile with
`is_dodging = false`, yet one call to `check_hazard_damage` leaves
health at 100, because the code also bails out when the general
`invulnerable` flag is set. -/
theorem hazard_ditch_counterexample :
    tileOf pC2.pos ∈ hrC2.ditches ∧ pC2.is_dodging = false ∧
    (hrC2.check_hazard_damage pC2).1.health ≠ 0 := by
  have htile : tileOf pC2.pos = (1, 1) := by
    unfold tileOf pC2
    norm_num [Int.floor_eq_iff]
  refine ⟨by rw [htile]; simp [hrC2], rfl, ?_⟩
  unfold HazardRoom.check_hazard_damage
  rw [if_pos (by rfl)]
  norm_num [pC2]

/-- C2 amended: a player on a ditch tile who is neither dodging nor
invulnerable has health set to exactly 0 by a single call to
`check_hazard_damage`. -/
theorem hazard_ditch_kills (hr : HazardRoom) (p : Player)
    (hinv : p.invulnerable = false) (hdg : p.is_dodging = false)
    (ht : tileOf p.pos ∈ hr.ditches) :
    (hr.check_hazard_damage p).1.health = 0 ∧
    (hr.check_hazard_damage p).2 = true := by
  unfold HazardRoom.check_hazard_damage
  rw [if_neg (by rw [hinv, hdg]; simp), if_pos ht]
  exact ⟨rfl, rfl⟩

/-- Concrete vulnerable player on the ditch tile, for the C2 witness. -/
noncomputable def pC2w : Player :=
  ⟨⟨24, 24⟩, ⟨0, 0⟩, 8, 120, 100, 100, 0, false, 0, 0, false, 0, 0⟩

/-- Witness for the amended C2 at a concrete vulnerable player. -/
theorem hazard_ditch_kills_witness :
    pC2w.invulnerable = false ∧ pC2w.is_dodging = false ∧
    tileOf pC2w.pos ∈ hrC2.ditches ∧
    ((hrC2.check_hazard_damage pC2w).1.health = 0 ∧
     (hrC2.check_hazard_damage pC2w).2 = true) := by
  have htile : tileOf pC2w.pos = (1, 1) := by
    unfold tileOf pC2w
    norm_num [Int.floor_eq_iff]
  have ht : tileOf pC2w.pos ∈ hrC2.ditches := by rw [htile]; simp [hrC2]
  exact ⟨rfl, rfl, ht, hazard_ditch_kills hrC2 pC2w rfl rfl ht⟩

/-- Embedding of class `Enemy` (fields read or written by the update
path; `enemy_type` is the Python type tag string). -/
structure Enemy where
  pos : Vec2
  velocity : Vec2
  size : ℝ
  health : ℝ
  max_health : ℝ
  speed : ℝ
  fire_timer : ℝ
  fire_rate : ℝ
  detection_range : ℝ
  damage : ℝ
  contact_damage : ℝ
  contact_damage_cooldown : ℝ
  last_contact_damage : ℝ
  enemy_type : String
  state : String
  state_timer : ℝ
  patrol_target : Vec2
  circle_angle : ℝ
  sight_blocked : Bool

/-- Random draws consumed by one `Enemy.update` call: the two
`randint(-20, 20)` prediction jitters, the `random.random()` coin of
`navigate_around_obstacles`, and the two `randint(-100, 100)` patrol
target offsets. -/
structure EnemyRng where
  predictX : ℤ
  predictY : ℤ
  navCoin : ℝ
  patrolX : ℤ
  patrolY : ℤ

/-- Sampling loop of `Enemy.check_line_of_sight`: step `n` times from
`cur`, returning true as soon as a sampled point lies on a wall tile. -/
noncomputable def losLoop (walls : Finset (ℤ × ℤ)) (step : Vec2) :
    Vec2 → ℕ → Bool
  | _, 0 => false
  | cur, n + 1 =>
    let next := cur.add step
    if tileOf next ∈ walls then true else losLoop walls step next n

/-- Embedding of `Enemy.check_line_of_sight`: distances below 8 are
never blocked; otherwise the segment to the player is sampled
`int(distance / 8)` times and sight is blocked when a sampled tile is a
wall. -/
noncomputable def check_line_of_sight (pos player_pos : Vec2)
    (walls : Finset (ℤ × ℤ)) : Bool :=
  let direction := player_pos.sub pos
  let distance := direction.distance_to ⟨0, 0⟩
  if distance = 0 ∨ distance < 8 then false
  else
    let steps : ℤ := ⌊distance / 8⌋
    if steps = 0 then false
    else losLoop walls (direction.smul (1 / (steps : ℝ))) pos steps.toNat

/-- Scaling composes on `Vec2`. -/
theorem Vec2.smul_smul (v : Vec2) (a b : ℝ) :
    (v.smul a).smul b = v.smul (a * b) := by
  unfold Vec2.smul; ext <;> dsimp <;> ring

/-- Scaling by one is the identity on `Vec2`. -/
theorem Vec2.smul_one (v : Vec2) : v.smul 1 = v := by
  unfold Vec2.smul; ext <;> dsimp <;> ring

/-- Accumulated addition: stepping once then `k` more times lands at the
`(k+1)`-st sample point. -/
theorem Vec2.add_smul_succ (c step : Vec2) (k : ℝ) :
    (c.add step).add (step.smul k) = c.add (step.smul (k + 1)) := by
  unfold Vec2.add Vec2.smul; ext <;> dsimp <;> ring

/-- The sampling loop reports blocked exactly when one of the first `n`
sample points `c + k·step` lies on a wall tile. -/
theorem losLoop_eq_true_iff (walls : Finset (ℤ × ℤ)) (step : Vec2)
    (c : Vec2) (n : ℕ) :
    losLoop walls step c n = true ↔
    ∃ k : ℕ, 1 ≤ k ∧ k ≤ n ∧ tileOf (c.add (step.smul (k : ℝ))) ∈ walls := by
  induction n generalizing c with
  | zero =>
    simp only [losLoop]
    constructor
    · intro h; exact absurd h (by simp)
    · rintro ⟨k, hk1, hk0, -⟩; omega
  | succ n ih =>
    simp only [losLoop]
    split_ifs with hmem
    · constructor
      · intro _
        exact ⟨1, le_refl 1, by omega, by rwa [Nat.cast_one, Vec2.smul_one]⟩
      · intro _; rfl
    · rw [ih]
      constructor
      · rintro ⟨k, hk1, hkn, hk⟩
        refine ⟨k + 1, by omega, by omega, ?_⟩
        rwa [Vec2.add_smul_succ, ← Nat.cast_add_one] at hk
      · rintro ⟨k, hk1, hkn, hk⟩
        rcases Nat.eq_or_lt_of_le hk1 with h1 | h1
        · exfalso
          rw [← h1, Nat.cast_one, Vec2.smul_one] at hk
          exact hmem hk
        · refine ⟨k - 1, by omega, by omega, ?_⟩
          rw [Vec2.add_smul_succ]
          have : ((k - 1 : ℕ) : ℝ) + 1 = (k : ℝ) := by
            have : (1 : ℕ) ≤ k := hk1
            push_cast [Nat.cast_sub this]
            ring
          rwa [this]

/-- C6: line of sight samples the straight segment to the player every
`int(distance/8)`-th fraction and is blocked iff some sampled point lies
on a wall tile; any distance under 8 is reported unblocked (the
zero-step case never divides). -/
theorem line_of_sight_spec (pos pp : Vec2) (walls : Finset (ℤ × ℤ)) :
    (Vec2.distance_to (pp.sub pos) ⟨0, 0⟩ < 8 →
      check_line_of_sight pos pp walls = false) ∧
    (8 ≤ Vec2.distance_to (pp.sub pos) ⟨0, 0⟩ →
      (check_line_of_sight pos pp walls = true ↔
        ∃ k : ℕ, 1 ≤ k ∧ (k : ℤ) ≤ ⌊Vec2.distance_to (pp.sub pos) ⟨0, 0⟩ / 8⌋ ∧
          tileOf (pos.add ((pp.sub pos).smul
            ((k : ℝ) / (⌊Vec2.distance_to (pp.sub pos) ⟨0, 0⟩ / 8⌋ : ℝ)))) ∈ walls)) := by
  constructor
  · intro h
    unfold check_line_of_sight
    rw [if_pos (Or.inr h)]
  · intro h8
    set D := Vec2.distance_to (pp.sub pos) ⟨0, 0⟩ with hD
    have hS1 : (1 : ℤ) ≤ ⌊D / 8⌋ := by
      rw [Int.le_floor]
      push_cast
      linarith
    simp only [check_line_of_sight]
    rw [← hD, if_neg (by push_neg; exact ⟨fun h => by linarith, by linarith⟩),
      if_neg (by omega)]
    rw [losLoop_eq_true_iff]
    apply exists_congr
    intro k
    have hcast : (⌊D / 8⌋ : ℝ) ≠ 0 := by
      have : (1 : ℝ) ≤ (⌊D / 8⌋ : ℝ) := by exact_mod_cast hS1
      linarith
    have hpoint : ((pp.sub pos).smul (1 / (⌊D / 8⌋ : ℝ))).smul (k : ℝ) =
        (pp.sub pos).smul ((k : ℝ) / (⌊D / 8⌋ : ℝ)) := by
      rw [Vec2.smul_smul]
      congr 1
      field_simp
    constructor
    · rintro ⟨h1, h2, h3⟩
      refine ⟨h1, by omega, ?_⟩
      rwa [hpoint] at h3
    · rintro ⟨h1, h2, h3⟩
      refine ⟨h1, by omega, ?_⟩
      rwa [hpoint]

/-- Witness for C6: from `(0,0)` to the player at `(32,0)` the distance
is 32, four samples are taken, and the sample at `k = 2` lands on the
wall tile `(1,0)`, so sight is blocked. -/
theorem line_of_sight_spec_witness :
    8 ≤ Vec2.distance_to (Vec2.sub ⟨32, 0⟩ ⟨0, 0⟩) ⟨0, 0⟩ ∧
    check_line_of_sight ⟨0, 0⟩ ⟨32, 0⟩ ({(1, 0)} : Finset (ℤ × ℤ)) = true := by
  have hD : Vec2.distance_to (Vec2.sub ⟨32, 0⟩ ⟨0, 0⟩) ⟨0, 0⟩ = 32 := by
    unfold Vec2.sub
    exact distance_eval (by norm_num) (by norm_num)
  have h8 : 8 ≤ Vec2.distance_to (Vec2.sub ⟨32, 0⟩ ⟨0, 0⟩) ⟨0, 0⟩ := by
    rw [hD]; norm_num
  refine ⟨h8, ?_⟩
  rw [(line_of_sight_spec ⟨0, 0⟩ ⟨32, 0⟩ ({(1, 0)} : Finset (ℤ × ℤ))).2 h8]
  have hfl : ⌊Vec2.distance_to (Vec2.sub ⟨32, 0⟩ ⟨0, 0⟩) ⟨0, 0⟩ / 8⌋ = 4 := by
    rw [hD]; norm_num [Int.floor_eq_iff]
  refine ⟨2, by norm_num, by rw [hfl]; norm_num, ?_⟩
  rw [hfl]
  have hpt : Vec2.add ⟨0, 0⟩ ((Vec2.sub ⟨32, 0⟩ ⟨0, 0⟩).smul (((2 : ℕ) : ℝ) / ((4 : ℤ) : ℝ))) =
      (⟨16, 0⟩ : Vec2) := by
    unfold Vec2.add Vec2.sub Vec2.smul
    ext <;> dsimp <;> norm_num
  rw [hpt]
  have htile : tileOf ⟨16, 0⟩ = (1, 0) := by
    unfold tileOf
    norm_num [Int.floor_eq_iff]
  rw [htile]
  simp

/-- Embedding of `Vector2.angle_to` (`math.atan2(dy, dx)`), via the
complex argument. -/
noncomputable def Vec2.angle_to (a b : Vec2) : ℝ := Complex.arg ⟨b.x - a.x, b.y - a.y⟩

/-- Embedding of `Enemy.rusher_behavior`: charge while farther than 30,
orbit at radius 25 when close. -/
noncomputable def rusher_behavior (player_pos : Vec2) (distance : ℝ) (e : Enemy) :
    Enemy :=
  if 30 < distance then
    { e with velocity := ((player_pos.sub e.pos).normalize).smul e.speed }
  else
    let ca := e.circle_angle + 0.05
    let circle_pos := player_pos.add ⟨Real.cos ca * 25, Real.sin ca * 25⟩
    { e with circle_angle := ca,
             velocity := (((circle_pos.sub e.pos).normalize).smul e.speed).smul 0.7 }

/-- Embedding of `Enemy.sniper_behavior`: approach beyond 120, retreat
under 80, otherwise strafe perpendicular to the current velocity,
flipping every 2 seconds. -/
noncomputable def sniper_behavior (player_pos : Vec2) (distance : ℝ) (e : Enemy) :
    Enemy :=
  if 120 < distance then
    { e with velocity := (((player_pos.sub e.pos).normalize).smul e.speed).smul 0.6 }
  else if distance < 80 then
    { e with velocity := (((e.pos.sub player_pos).normalize).smul e.speed).smul 0.8 }
  else
    let perpendicular := (Vec2.mk (-e.velocity.y) e.velocity.x).normalize
    if 2 < e.state_timer then
      { e with state_timer := 0,
               velocity := ((perpendicular.smul (-1)).smul e.speed).smul 0.4 }
    else
      { e with velocity := (perpendicular.smul e.speed).smul 0.4 }

/-- Embedding of `Enemy.navigate_around_obstacles`: dodge laterally,
left or right of the line to the player according to the random coin. -/
noncomputable def navigate_around_obstacles (player_pos : Vec2) (rng : EnemyRng)
    (e : Enemy) : Enemy :=
  let direction_to_player := (player_pos.sub e.pos).normalize
  let left_direction := Vec2.mk (-direction_to_player.y) direction_to_player.x
  let right_direction := Vec2.mk direction_to_player.y (-direction_to_player.x)
  if rng.navCoin < 0.5 then
    { e with velocity := (left_direction.smul e.speed).smul 0.6 }
  else
    { e with velocity := (right_direction.smul e.speed).smul 0.6 }

/-- Embedding of `Enemy.smart_chase_behavior`: navigate around
obstacles when sight is blocked, else chase a jittered prediction beyond
100, circle-strafe between 50 and 100, and retreat under 50. -/
noncomputable def smart_chase_behavior (player_pos : Vec2) (distance : ℝ)
    (rng : EnemyRng) (e : Enemy) : Enemy :=
  if e.sight_blocked then
    navigate_around_obstacles player_pos rng e
  else if 100 < distance then
    let predicted_pos := player_pos.add ⟨(rng.predictX : ℝ), (rng.predictY : ℝ)⟩
    { e with velocity := ((predicted_pos.sub e.pos).normalize).smul e.speed }
  else if 50 < distance then
    let angle_to_player := e.pos.angle_to player_pos
    let circ := angle_to_player + Real.pi / 2 + Real.sin (e.state_timer * 2) * 0.5
    { e with velocity :=
        ((Vec2.mk (Real.cos circ) (Real.sin circ)).smul e.speed).smul 0.7 }
  else
    { e with velocity := (((e.pos.sub player_pos).normalize).smul e.speed).smul 0.5 }

/-- Embedding of `Enemy.update_ai_behavior`: refresh `sight_blocked`
then dispatch on the enemy type tag. -/
noncomputable def update_ai_behavior (player_pos : Vec2) (walls : Finset (ℤ × ℤ))
    (rng : EnemyRng) (distance_to_player : ℝ) (e : Enemy) : Enemy :=
  let e1 := { e with sight_blocked := check_line_of_sight e.pos player_pos walls }
  if e1.enemy_type = "rusher" then rusher_behavior player_pos distance_to_player e1
  else if e1.enemy_type = "sniper" then sniper_behavior player_pos distance_to_player e1
  else smart_chase_behavior player_pos distance_to_player rng e1

/-- Embedding of `Enemy.patrol_behavior`: pick a new patrol target when
within 20 units of the old one, otherwise steer toward it at 0.3 of the
speed. -/
noncomputable def patrol_behavior (rng : EnemyRng) (e : Enemy) : Enemy :=
  let direction := e.patrol_target.sub e.pos
  if direction.distance_to ⟨0, 0⟩ < 20 then
    { e with patrol_target := e.pos.add ⟨(rng.patrolX : ℝ), (rng.patrolY : ℝ)⟩ }
  else
    { e with velocity := ((direction.normalize).smul e.speed).smul 0.3 }

/-- Embedding of `Enemy.update`: advance timers, branch on strict
`distance < detection_range` between combat AI and patrol, integrate
velocity, advance the fire timer. -/
noncomputable def Enemy.update (dt : ℝ) (player_pos : Vec2)
    (walls : Finset (ℤ × ℤ)) (rng : EnemyRng) (e : Enemy) : Enemy :=
  let e1 := { e with state_timer := e.state_timer + dt,
                     last_contact_damage := e.last_contact_damage + dt }
  let distance_to_player := e1.pos.distance_to player_pos
  let e2 :=
    if distance_to_player < e1.detection_range then
      update_ai_behavior player_pos walls rng distance_to_player e1
    else
      patrol_behavior rng e1
  let e3 := { e2 with pos := e2.pos.add (e2.velocity.smul dt) }
  { e3 with fire_timer := e3.fire_timer + dt }

/-- The patrol-branch path of `Enemy.update` (timers, patrol behavior,
motion integration, fire-timer advance), named for the C7 theorem. -/
noncomputable def patrol_update (dt : ℝ) (rng : EnemyRng) (e : Enemy) : Enemy :=
  let e1 := { e with state_timer := e.state_timer + dt,
                     last_contact_damage := e.last_contact_damage + dt }
  let e2 := patrol_behavior rng e1
  let e3 := { e2 with pos := e2.pos.add (e2.velocity.smul dt) }
  { e3 with fire_timer := e3.fire_timer + dt }

/-- C7: an enemy whose distance to the player equals its
`detection_range` exactly takes the patrol branch of `Enemy.update` —
detection is a strict less-than comparison. -/
theorem update_at_detection_range_patrols (dt : ℝ) (player_pos : Vec2)
    (walls : Finset (ℤ × ℤ)) (rng : EnemyRng) (e : Enemy)
    (h : e.pos.distance_to player_pos = e.detection_range) :
    Enemy.update dt player_pos walls rng e = patrol_update dt rng e := by
  simp only [Enemy.update, patrol_update]
  rw [if_neg]
  rw [h]
  exact lt_irrefl _

/-- Concrete enemy for the C7 witness, at distance exactly 180 (its
detection range) from the player. -/
noncomputable def eC7 : Enemy :=
  ⟨⟨0, 0⟩, ⟨0, 0⟩, 8, 30, 30, 60, 0, 0.5, 180, 8, 12, 2, 0, "basic", "patrol",
    0, ⟨50, 50⟩, 0, false⟩

/-- Witness for C7 at a concrete enemy/player pair. -/
theorem update_at_detection_range_patrols_witness :
    eC7.pos.distance_to ⟨180, 0⟩ = eC7.detection_range ∧
    Enemy.update 0.016 ⟨180, 0⟩ ∅ ⟨0, 0, 0, 0, 0⟩ eC7 =
      patrol_update 0.016 ⟨0, 0, 0, 0, 0⟩ eC7 := by
  have h : eC7.pos.distance_to ⟨180, 0⟩ = eC7.detection_range := by
    show Vec2.distance_to ⟨0, 0⟩ ⟨180, 0⟩ = 180
    exact distance_eval (by norm_num) (by norm_num)
  exact ⟨h, update_at_detection_range_patrols 0.016 ⟨180, 0⟩ ∅ ⟨0, 0, 0, 0, 0⟩ eC7 h⟩

/-- Embedding of class `Room` (grid dimensions and tile sets; enemies
and projectiles are threaded explicitly through the functions below). -/
structure Room where
  width : ℕ
  height : ℕ
  level : ℕ
  walls : Finset (ℤ × ℤ)
  floor_tiles : Finset (ℤ × ℤ)

/-- Boundary clamp at the top and bottom of `Room.validate_position`:
the `if/elif` chains clamping each coordinate into
`[margin, room_size - margin]` with `margin = size/2 + 2`. -/
noncomputable def clampBounds (room : Room) (size : ℝ) (p : Vec2) : Vec2 :=
  let margin := size / 2 + 2
  let room_width := (room.width : ℝ) * 16
  let room_height := (room.height : ℝ) * 16
  let x := if p.x < margin then margin
           else if room_width - margin < p.x then room_width - margin else p.x
  let y := if p.y < margin then margin
           else if room_height - margin < p.y then room_height - margin else p.y
  ⟨x, y⟩

/-- The 3×3 neighborhood offsets scanned by `Room.validate_position`,
in Python iteration order (`dx` outer, `dy` inner). -/
def neighborhood : List (ℤ × ℤ) :=
  [(-1, -1), (-1, 0), (-1, 1), (0, -1), (0, 0), (0, 1), (1, -1), (1, 0), (1, 1)]

/-- One step of the wall-push accumulation in `Room.validate_position`:
for a wall tile closer than `size/2 + 8`, count the collision and (when
the distance exceeds the 0.1 epsilon) accumulate a push of magnitude
`required - actual + 1` away from the wall center. -/
noncomputable def pushStep (room : Room) (size : ℝ) (p : Vec2) (tile : ℤ × ℤ)
    (acc : ℝ × ℝ × ℕ) : ℝ × ℝ × ℕ :=
  if tile ∈ room.walls then
    let wall_center := Vec2.mk ((tile.1 : ℝ) * 16 + 8) ((tile.2 : ℝ) * 16 + 8)
    let wall_distance := wall_center.distance_to p
    let required_distance := size / 2 + 8
    if wall_distance < required_distance then
      if 0.1 < wall_distance then
        let push_dir := (p.sub wall_center).normalize
        let push_strength := required_distance - wall_distance + 1
        (acc.1 + push_dir.x * push_strength, acc.2.1 + push_dir.y * push_strength,
          acc.2.2 + 1)
      else (acc.1, acc.2.1, acc.2.2 + 1)
    else acc
  else acc

/-- Accumulated push and collision count over the 3×3 tile neighborhood
of `p`, as in the wall-collision loop of `Room.validate_position`. -/
noncomputable def wallPush (room : Room) (size : ℝ) (p : Vec2) : ℝ × ℝ × ℕ :=
  (neighborhood.map (fun d => (⌊p.x / 16⌋ + d.1, ⌊p.y / 16⌋ + d.2))).foldl
    (fun acc tile => pushStep room size p tile acc) (0, 0, 0)

/-- Embedding of `Room.validate_position`: clamp into bounds, accumulate
wall pushes over the 3×3 neighborhood, and if any collision was found
apply the averaged push and re-clamp. -/
noncomputable def Room.validate_position (room : Room) (p0 : Vec2) (size : ℝ) :
    Vec2 :=
  let p := clampBounds room size p0
  let acc := wallPush room size p
  if 0 < acc.2.2 then
    clampBounds room size
      ⟨p.x + acc.1 / (acc.2.2 : ℝ), p.y + acc.2.1 / (acc.2.2 : ℝ)⟩
  else p

/-- A tile that is not a wall contributes nothing to the push
accumulation. -/
theorem pushStep_skip (room : Room) (size : ℝ) (p : Vec2) (tile : ℤ × ℤ)
    (h : tile ∉ room.walls) (acc : ℝ × ℝ × ℕ) :
    pushStep room size p tile acc = acc := by
  simp [pushStep, h]

/-- A wall tile at distance at least `size/2 + 8` contributes nothing to
the push accumulation. -/
theorem pushStep_far (room : Room) (size : ℝ) (p : Vec2) (tile : ℤ × ℤ)
    (h : tile ∈ room.walls)
    (hd : ¬ (Vec2.mk ((tile.1 : ℝ) * 16 + 8) ((tile.2 : ℝ) * 16 + 8)).distance_to p
        < size / 2 + 8) (acc : ℝ × ℝ × ℕ) :
    pushStep room size p tile acc = acc := by
  simp only [pushStep, if_pos h]
  rw [if_neg hd]

/-- A colliding wall tile beyond the 0.1 epsilon adds its push vector
and increments the collision count. -/
theorem pushStep_hit (room : Room) (size : ℝ) (p : Vec2) (tile : ℤ × ℤ)
    (h : tile ∈ room.walls)
    (hd : (Vec2.mk ((tile.1 : ℝ) * 16 + 8) ((tile.2 : ℝ) * 16 + 8)).distance_to p
        < size / 2 + 8)
    (hd2 : 0.1 <
      (Vec2.mk ((tile.1 : ℝ) * 16 + 8) ((tile.2 : ℝ) * 16 + 8)).distance_to p)
    (acc : ℝ × ℝ × ℕ) :
    pushStep room size p tile acc =
      (acc.1 + ((p.sub ⟨(tile.1 : ℝ) * 16 + 8, (tile.2 : ℝ) * 16 + 8⟩).normalize).x *
          (size / 2 + 8 -
            (Vec2.mk ((tile.1 : ℝ) * 16 + 8) ((tile.2 : ℝ) * 16 + 8)).distance_to p + 1),
        acc.2.1 + ((p.sub ⟨(tile.1 : ℝ) * 16 + 8, (tile.2 : ℝ) * 16 + 8⟩).normalize).y *
          (size / 2 + 8 -
            (Vec2.mk ((tile.1 : ℝ) * 16 + 8) ((tile.2 : ℝ) * 16 + 8)).distance_to p + 1),
        acc.2.2 + 1) := by
  simp only [pushStep, if_pos h]
  rw [if_pos hd, if_pos hd2]

/-- Folding a function that fixes every accumulator over its argument
list is the identity. -/
theorem foldl_fixes {α β : Type} (f : β → α → β) (l : List α) (init : β)
    (h : ∀ t ∈ l, ∀ acc, f acc t = acc) : l.foldl f init = init := by
  induction l generalizing init with
  | nil => rfl
  | cons a l ih =>
    rw [List.foldl_cons, h a (by simp), ih]
    intro t ht acc
    exact h t (List.mem_cons_of_mem a ht) acc

/-- A position strictly inside the margins whose 3×3 neighborhood
contains no wall tile closer than `size/2 + 8` is left unchanged by
`Room.validate_position`. -/
theorem validate_no_collision (room : Room) (p : Vec2) (size : ℝ)
    (hx1 : size / 2 + 2 ≤ p.x)
    (hx2 : p.x ≤ (room.width : ℝ) * 16 - (size / 2 + 2))
    (hy1 : size / 2 + 2 ≤ p.y)
    (hy2 : p.y ≤ (room.height : ℝ) * 16 - (size / 2 + 2))
    (hw : ∀ d ∈ neighborhood,
      (⌊p.x / 16⌋ + d.1, ⌊p.y / 16⌋ + d.2) ∈ room.walls →
      size / 2 + 8 ≤
        (Vec2.mk (((⌊p.x / 16⌋ + d.1 : ℤ) : ℝ) * 16 + 8)
          (((⌊p.y / 16⌋ + d.2 : ℤ) : ℝ) * 16 + 8)).distance_to p) :
    room.validate_position p size = p := by
  have hclamp : clampBounds room size p = p := by
    simp only [clampBounds]
    rw [if_neg (not_lt.mpr hx1), if_neg (not_lt.mpr (by linarith)),
      if_neg (not_lt.mpr hy1), if_neg (not_lt.mpr (by linarith))]
  have hfold : wallPush room size p = (0, 0, 0) := by
    unfold wallPush
    apply foldl_fixes
    intro t ht acc
    obtain ⟨d, hd, rfl⟩ := List.mem_map.mp ht
    by_cases hm : (⌊p.x / 16⌋ + d.1, ⌊p.y / 16⌋ + d.2) ∈ room.walls
    · exact pushStep_far room size p _ hm (not_lt.mpr (hw d hd hm)) acc
    · exact pushStep_skip room size p _ hm acc
  simp only [Room.validate_position]
  rw [hclamp, hfold]
  norm_num

/-- C3 amended: a resolved position — one strictly inside the margins
whose 3×3 neighborhood has no wall within the required distance — is a
fixed point of the tile push-out resolver.  One call does not in
general produce such a position (see the counterexample), so the
resolver is not idempotent in full generality. -/
theorem validate_position_fixed_of_resolved (room : Room) (p : Vec2) (size : ℝ)
    (hx1 : size / 2 + 2 ≤ p.x)
    (hx2 : p.x ≤ (room.width : ℝ) * 16 - (size / 2 + 2))
    (hy1 : size / 2 + 2 ≤ p.y)
    (hy2 : p.y ≤ (room.height : ℝ) * 16 - (size / 2 + 2))
    (hw : ∀ d ∈ neighborhood,
      (⌊p.x / 16⌋ + d.1, ⌊p.y / 16⌋ + d.2) ∈ room.walls →
      size / 2 + 8 ≤
        (Vec2.mk (((⌊p.x / 16⌋ + d.1 : ℤ) : ℝ) * 16 + 8)
          (((⌊p.y / 16⌋ + d.2 : ℤ) : ℝ) * 16 + 8)).distance_to p) :
    room.validate_position (room.validate_position p size) size =
      room.validate_position p size := by
  rw [validate_no_collision room p size hx1 hx2 hy1 hy2 hw,
    validate_no_collision room p size hx1 hx2 hy1 hy2 hw]

/-- Concrete room for the C3 witness: a lone wall tile far from the
probe position. -/
noncomputable def roomC3w : Room := ⟨25, 20, 1, {(0, 0)}, ∅⟩

/-- Witness for the amended C3 at a concrete resolved position. -/
theorem validate_position_fixed_of_resolved_witness :
    roomC3w.validate_position (roomC3w.validate_position ⟨100, 100⟩ 8) 8 =
      roomC3w.validate_position ⟨100, 100⟩ 8 := by
  apply validate_position_fixed_of_resolved
  · show (8:ℝ) / 2 + 2 ≤ 100; norm_num
  · show (100:ℝ) ≤ (25:ℕ) * 16 - (8 / 2 + 2); norm_num
  · show (8:ℝ) / 2 + 2 ≤ 100; norm_num
  · show (100:ℝ) ≤ (20:ℕ) * 16 - (8 / 2 + 2); norm_num
  · intro d hd hm
    exfalso
    have hf : ⌊(100:ℝ) / 16⌋ = (6:ℤ) := by
      rw [Int.floor_eq_iff]
      norm_num
    simp only [show (Vec2.mk (100:ℝ) 100).x = 100 from rfl,
      show (Vec2.mk (100:ℝ) 100).y = 100 from rfl, hf] at hm
    fin_cases hd <;> simp [roomC3w] at hm

/-- Concrete room for the C3 counterexample: wall tiles at `(0,0)` and
`(1,0)`. -/
noncomputable def roomC3 : Room := ⟨25, 20, 1, {(0, 0), (1, 0)}, ∅⟩

/-- First resolver call of the C3 counterexample: from `(10,8)` only the
wall `(0,0)` (distance 2) collides, pushing by 11 to `(21,8)`. -/
theorem validateA_eval : roomC3.validate_position ⟨10, 8⟩ 8 = ⟨21, 8⟩ := by
  have hfx : ⌊(10:ℝ) / 16⌋ = (0:ℤ) := by rw [Int.floor_eq_iff]; norm_num
  have hfy : ⌊(8:ℝ) / 16⌋ = (0:ℤ) := by rw [Int.floor_eq_iff]; norm_num
  have dA : Vec2.distance_to ⟨8, 8⟩ ⟨10, 8⟩ = 2 :=
    distance_eval (by norm_num) (by norm_num)
  have dB : Vec2.distance_to ⟨24, 8⟩ ⟨10, 8⟩ = 14 :=
    distance_eval (by norm_num) (by norm_num)
  have hlen : Vec2.length ⟨2, 0⟩ = 2 := by
    unfold Vec2.length; exact sqrt_eval (by norm_num) (by norm_num)
  have nA : Vec2.normalize ⟨2, 0⟩ = ⟨1, 0⟩ := by
    unfold Vec2.normalize
    rw [hlen, if_pos (by norm_num)]
    norm_num
  have hclamp : clampBounds roomC3 8 ⟨10, 8⟩ = ⟨10, 8⟩ := by
    simp only [clampBounds, roomC3]
    norm_num
  have hcA : Vec2.mk ((((0:ℤ), (0:ℤ)).1 : ℝ) * 16 + 8)
      ((((0:ℤ), (0:ℤ)).2 : ℝ) * 16 + 8) = (⟨8, 8⟩ : Vec2) := by norm_num
  have hcB : Vec2.mk ((((1:ℤ), (0:ℤ)).1 : ℝ) * 16 + 8)
      ((((1:ℤ), (0:ℤ)).2 : ℝ) * 16 + 8) = (⟨24, 8⟩ : Vec2) := by norm_num
  have hfarB : ¬ (Vec2.mk ((((1:ℤ), (0:ℤ)).1 : ℝ) * 16 + 8)
      ((((1:ℤ), (0:ℤ)).2 : ℝ) * 16 + 8)).distance_to ⟨10, 8⟩ < (8:ℝ) / 2 + 8 := by
    rw [hcB, dB]; norm_num
  have hhitA : (Vec2.mk ((((0:ℤ), (0:ℤ)).1 : ℝ) * 16 + 8)
      ((((0:ℤ), (0:ℤ)).2 : ℝ) * 16 + 8)).distance_to ⟨10, 8⟩ < (8:ℝ) / 2 + 8 := by
    rw [hcA, dA]; norm_num
  have hepsA : (0.1:ℝ) < (Vec2.mk ((((0:ℤ), (0:ℤ)).1 : ℝ) * 16 + 8)
      ((((0:ℤ), (0:ℤ)).2 : ℝ) * 16 + 8)).distance_to ⟨10, 8⟩ := by
    rw [hcA, dA]; norm_num
  have hsub : Vec2.sub ⟨10, 8⟩ ⟨8, 8⟩ = (⟨2, 0⟩ : Vec2) := by
    unfold Vec2.sub; norm_num
  have hpush : wallPush roomC3 8 ⟨10, 8⟩ = (11, 0, 1) := by
    unfold wallPush
    have hmap : neighborhood.map
        (fun d => (⌊(Vec2.mk (10:ℝ) 8).x / 16⌋ + d.1,
          ⌊(Vec2.mk (10:ℝ) 8).y / 16⌋ + d.2)) =
        [(-1, -1), (-1, 0), (-1, 1), (0, -1), (0, 0), (0, 1), (1, -1), (1, 0),
          (1, 1)] := by
      simp only [neighborhood, List.map_cons, List.map_nil]
      norm_num [hfx, hfy]
    rw [hmap]
    simp only [List.foldl_cons, List.foldl_nil]
    rw [pushStep_skip roomC3 8 ⟨10, 8⟩ (-1, -1) (by decide),
      pushStep_skip roomC3 8 ⟨10, 8⟩ (-1, 0) (by decide),
      pushStep_skip roomC3 8 ⟨10, 8⟩ (-1, 1) (by decide),
      pushStep_skip roomC3 8 ⟨10, 8⟩ (0, -1) (by decide),
      pushStep_skip roomC3 8 ⟨10, 8⟩ (0, 1) (by decide),
      pushStep_skip roomC3 8 ⟨10, 8⟩ (1, -1) (by decide),
      pushStep_skip roomC3 8 ⟨10, 8⟩ (1, 1) (by decide),
      pushStep_hit roomC3 8 ⟨10, 8⟩ (0, 0) (by decide) hhitA hepsA,
      pushStep_far roomC3 8 ⟨10, 8⟩ (1, 0) (by decide) hfarB]
    rw [hcA, hsub, nA, dA]
    norm_num
  simp only [Room.validate_position]
  rw [hclamp, hpush]
  simp only [clampBounds, roomC3]
  norm_num

/-- Second resolver call of the C3 counterexample: from `(21,8)` the
wall `(1,0)` (distance 3) now collides, pushing back to `(11,8)`. -/
theorem validateB_eval : roomC3.validate_position ⟨21, 8⟩ 8 = ⟨11, 8⟩ := by
  have hfx : ⌊(21:ℝ) / 16⌋ = (1:ℤ) := by rw [Int.floor_eq_iff]; norm_num
  have hfy : ⌊(8:ℝ) / 16⌋ = (0:ℤ) := by rw [Int.floor_eq_iff]; norm_num
  have dA : Vec2.distance_to ⟨8, 8⟩ ⟨21, 8⟩ = 13 :=
    distance_eval (by norm_num) (by norm_num)
  have dB : Vec2.distance_to ⟨24, 8⟩ ⟨21, 8⟩ = 3 :=
    distance_eval (by norm_num) (by norm_num)
  have hlen : Vec2.length ⟨-3, 0⟩ = 3 := by
    unfold Vec2.length; exact sqrt_eval (by norm_num) (by norm_num)
  have nB : Vec2.normalize ⟨-3, 0⟩ = ⟨-1, 0⟩ := by
    unfold Vec2.normalize
    rw [hlen, if_pos (by norm_num)]
    norm_num
  have hclamp : clampBounds roomC3 8 ⟨21, 8⟩ = ⟨21, 8⟩ := by
    simp only [clampBounds, roomC3]
    norm_num
  have hcA : Vec2.mk ((((0:ℤ), (0:ℤ)).1 : ℝ) * 16 + 8)
      ((((0:ℤ), (0:ℤ)).2 : ℝ) * 16 + 8) = (⟨8, 8⟩ : Vec2) := by norm_num
  have hcB : Vec2.mk ((((1:ℤ), (0:ℤ)).1 : ℝ) * 16 + 8)
      ((((1:ℤ), (0:ℤ)).2 : ℝ) * 16 + 8) = (⟨24, 8⟩ : Vec2) := by norm_num
  have hfarA : ¬ (Vec2.mk ((((0:ℤ), (0:ℤ)).1 : ℝ) * 16 + 8)
      ((((0:ℤ), (0:ℤ)).2 : ℝ) * 16 + 8)).distance_to ⟨21, 8⟩ < (8:ℝ) / 2 + 8 := by
    rw [hcA, dA]; norm_num
  have hhitB : (Vec2.mk ((((1:ℤ), (0:ℤ)).1 : ℝ) * 16 + 8)
      ((((1:ℤ), (0:ℤ)).2 : ℝ) * 16 + 8)).distance_to ⟨21, 8⟩ < (8:ℝ) / 2 + 8 := by
    rw [hcB, dB]; norm_num
  have hepsB : (0.1:ℝ) < (Vec2.mk ((((1:ℤ), (0:ℤ)).1 : ℝ) * 16 + 8)
      ((((1:ℤ), (0:ℤ)).2 : ℝ) * 16 + 8)).distance_to ⟨21, 8⟩ := by
    rw [hcB, dB]; norm_num
  have hsub : Vec2.sub ⟨21, 8⟩ ⟨24, 8⟩ = (⟨-3, 0⟩ : Vec2) := by
    unfold Vec2.sub; norm_num
  have hpush : wallPush roomC3 8 ⟨21, 8⟩ = (-10, 0, 1) := by
    unfold wallPush
    have hmap : neighborhood.map
        (fun d => (⌊(Vec2.mk (21:ℝ) 8).x / 16⌋ + d.1,
          ⌊(Vec2.mk (21:ℝ) 8).y / 16⌋ + d.2)) =
        [(0, -1), (0, 0), (0, 1), (1, -1), (1, 0), (1, 1), (2, -1), (2, 0),
          (2, 1)] := by
      simp only [neighborhood, List.map_cons, List.map_nil]
      norm_num [hfx, hfy]
    rw [hmap]
    simp only [List.foldl_cons, List.foldl_nil]
    rw [pushStep_skip roomC3 8 ⟨21, 8⟩ (0, -1) (by decide),
      pushStep_skip roomC3 8 ⟨21, 8⟩ (0, 1) (by decide),
      pushStep_skip roomC3 8 ⟨21, 8⟩ (1, -1) (by decide),
      pushStep_skip roomC3 8 ⟨21, 8⟩ (1, 1) (by decide),
      pushStep_skip roomC3 8 ⟨21, 8⟩ (2, -1) (by decide),
      pushStep_skip roomC3 8 ⟨21, 8⟩ (2, 0) (by decide),
      pushStep_skip roomC3 8 ⟨21, 8⟩ (2, 1) (by decide),
      pushStep_far roomC3 8 ⟨21, 8⟩ (0, 0) (by decide) hfarA,
      pushStep_hit roomC3 8 ⟨21, 8⟩ (1, 0) (by decide) hhitB hepsB]
    rw [hcB, hsub, nB, dB]
    norm_num
  simp only [Room.validate_position]
  rw [hclamp, hpush]
  simp only [clampBounds, roomC3]
  norm_num

/-- Counterexample to C3 as stated: in `roomC3` the position `(10,8)`
resolves to `(21,8)`, but a second resolver call moves it again, to
`(11,8)` — the resolved position is not a fixed point. -/
theorem validate_not_idempotent :
    roomC3.validate_position (roomC3.validate_position ⟨10, 8⟩ 8) 8 ≠
      roomC3.validate_position ⟨10, 8⟩ 8 := by
  rw [validateA_eval, validateB_eval]
  intro h
  have hx := congrArg Vec2.x h
  norm_num at hx

/-- Body of the enemy-separation double loop in `Room.update` for one
unordered pair: when the distance is below `(size1+size2)/2 + 5` and
above the 0.1 epsilon, push the two enemies apart along the connecting
normal by `(min_distance - distance) * 0.5 * 0.5` each and re-validate
both positions against the walls. -/
noncomputable def sepPair (room : Room) (e1 e2 : Enemy) : Enemy × Enemy :=
  let distance := e1.pos.distance_to e2.pos
  let min_distance := (e1.size + e2.size) / 2 + 5
  if distance < min_distance ∧ 0.1 < distance then
    let push_direction := (e1.pos.sub e2.pos).normalize
    let push_strength := (min_distance - distance) * 0.5
    let e1a := { e1 with pos := e1.pos.add ((push_direction.smul push_strength).smul 0.5) }
    let e2a := { e2 with pos := e2.pos.sub ((push_direction.smul push_strength).smul 0.5) }
    ({ e1a with pos := room.validate_position e1a.pos e1a.size },
     { e2a with pos := room.validate_position e2a.pos e2a.size })
  else (e1, e2)

/-- Apply `sepPair` to the enemies at indices `i` and `j` of the room's
enemy list (identity when an index is out of range). -/
noncomputable def sepAt (room : Room) (es : List Enemy) (i j : ℕ) : List Enemy :=
  match es.get? i, es.get? j with
  | some a, some b =>
    let p := sepPair room a b
    (es.set i p.1).set j p.2
  | _, _ => es

/-- The enemy-separation pass of `Room.update` (lines 715–731): every
unordered pair `(i, j)` with `i < j`, in Python iteration order, with
in-place position updates threaded through the list. -/
noncomputable def Room.enemy_separation (room : Room) (es : List Enemy) :
    List Enemy :=
  (List.range es.length).foldl (fun acc i =>
    (List.range es.length).foldl (fun acc2 j =>
      if i < j then sepAt room acc2 i j else acc2) acc) es

/-- Distance algebra of the mutual push: pushing both endpoints apart by
`(m - d) * 0.5 * 0.5` each along the connecting normal yields the new
separation `(d + m) / 2` — half the penetration remains. -/
theorem push_apart_dist (a b : Vec2) (m : ℝ)
    (h1 : 0.1 < a.distance_to b) (h2 : a.distance_to b < m) :
    Vec2.distance_to
        (a.add ((((a.sub b).normalize).smul ((m - a.distance_to b) * 0.5)).smul 0.5))
        (b.sub ((((a.sub b).normalize).smul ((m - a.distance_to b) * 0.5)).smul 0.5)) =
      (a.distance_to b + m) / 2 := by
  have hD0 : 0 < a.distance_to b := lt_trans (by norm_num) h1
  have hS : (a.x - b.x) ^ 2 + (a.y - b.y) ^ 2 = (a.distance_to b) ^ 2 := by
    unfold Vec2.distance_to
    rw [Real.sq_sqrt (by positivity)]
  have hlen : (a.sub b).length = a.distance_to b := rfl
  have hnorm : (a.sub b).normalize =
      ⟨(a.x - b.x) / a.distance_to b, (a.y - b.y) / a.distance_to b⟩ := by
    unfold Vec2.normalize
    rw [hlen, if_pos hD0]
    rfl
  rw [hnorm]
  obtain ⟨D, hg⟩ : ∃ D, a.distance_to b = D := ⟨_, rfl⟩
  rw [hg] at hS h1 h2 hD0 ⊢
  have hDne : D ≠ 0 := ne_of_gt hD0
  unfold Vec2.distance_to Vec2.add Vec2.sub Vec2.smul
  dsimp only
  have hfactor :
      (a.x + (a.x - b.x) / D * ((m - D) * 0.5) * 0.5 -
        (b.x - (a.x - b.x) / D * ((m - D) * 0.5) * 0.5)) ^ 2 +
      (a.y + (a.y - b.y) / D * ((m - D) * 0.5) * 0.5 -
        (b.y - (a.y - b.y) / D * ((m - D) * 0.5) * 0.5)) ^ 2 =
      ((D + m) / (2 * D)) ^ 2 * ((a.x - b.x) ^ 2 + (a.y - b.y) ^ 2) := by
    field_simp
    ring
  rw [hfactor, hS, show ((D + m) / (2 * D)) ^ 2 * D ^ 2 = ((D + m) / 2) ^ 2 by
    field_simp; ring]
  exact Real.sqrt_sq (by linarith)

/-- Evaluation of `sepPair` in the colliding case, assuming the wall
re-validation leaves the two pushed positions unchanged. -/
theorem sepPair_eval (room : Room) (a b : Enemy)
    (h1 : 0.1 < a.pos.distance_to b.pos)
    (h2 : a.pos.distance_to b.pos < (a.size + b.size) / 2 + 5)
    (hva : room.validate_position
        (a.pos.add ((((a.pos.sub b.pos).normalize).smul
          (((a.size + b.size) / 2 + 5 - a.pos.distance_to b.pos) * 0.5)).smul 0.5))
        a.size =
      a.pos.add ((((a.pos.sub b.pos).normalize).smul
        (((a.size + b.size) / 2 + 5 - a.pos.distance_to b.pos) * 0.5)).smul 0.5))
    (hvb : room.validate_position
        (b.pos.sub ((((a.pos.sub b.pos).normalize).smul
          (((a.size + b.size) / 2 + 5 - a.pos.distance_to b.pos) * 0.5)).smul 0.5))
        b.size =
      b.pos.sub ((((a.pos.sub b.pos).normalize).smul
        (((a.size + b.size) / 2 + 5 - a.pos.distance_to b.pos) * 0.5)).smul 0.5)) :
    sepPair room a b =
      ({ a with pos := a.pos.add ((((a.pos.sub b.pos).normalize).smul
          (((a.size + b.size) / 2 + 5 - a.pos.distance_to b.pos) * 0.5)).smul 0.5) },
       { b with pos := b.pos.sub ((((a.pos.sub b.pos).normalize).smul
          (((a.size + b.size) / 2 + 5 - a.pos.distance_to b.pos) * 0.5)).smul 0.5) }) := by
  simp only [sepPair]
  rw [if_pos ⟨h2, h1⟩]
  rw [hva, hvb]

/-- C1 amended: one separation step on a colliding pair (with wall
re-validation a no-op) pushes each enemy by a quarter of the
penetration, leaving separation `(d + min_distance)/2` — half the
penetration remains, not all of it. -/
theorem sepPair_separation (room : Room) (a b : Enemy)
    (h1 : 0.1 < a.pos.distance_to b.pos)
    (h2 : a.pos.distance_to b.pos < (a.size + b.size) / 2 + 5)
    (hva : room.validate_position
        (a.pos.add ((((a.pos.sub b.pos).normalize).smul
          (((a.size + b.size) / 2 + 5 - a.pos.distance_to b.pos) * 0.5)).smul 0.5))
        a.size =
      a.pos.add ((((a.pos.sub b.pos).normalize).smul
        (((a.size + b.size) / 2 + 5 - a.pos.distance_to b.pos) * 0.5)).smul 0.5))
    (hvb : room.validate_position
        (b.pos.sub ((((a.pos.sub b.pos).normalize).smul
          (((a.size + b.size) / 2 + 5 - a.pos.distance_to b.pos) * 0.5)).smul 0.5))
        b.size =
      b.pos.sub ((((a.pos.sub b.pos).normalize).smul
        (((a.size + b.size) / 2 + 5 - a.pos.distance_to b.pos) * 0.5)).smul 0.5)) :
    ((sepPair room a b).1.pos).distance_to ((sepPair room a b).2.pos) =
      (a.pos.distance_to b.pos + ((a.size + b.size) / 2 + 5)) / 2 := by
  rw [sepPair_eval room a b h1 h2 hva hvb]
  exact push_apart_dist a.pos b.pos ((a.size + b.size) / 2 + 5) h1 h2

/-- Concrete wall-free room for the C1 scenario. -/
noncomputable def roomC1 : Room := ⟨25, 20, 1, ∅, ∅⟩

/-- First enemy of the C1 scenario: radius (`size`) 8 at `(100,100)`. -/
noncomputable def eA : Enemy :=
  ⟨⟨100, 100⟩, ⟨0, 0⟩, 8, 30, 30, 60, 0, 0.5, 180, 8, 12, 2, 0, "basic",
    "patrol", 0, ⟨0, 0⟩, 0, false⟩

/-- Second enemy of the C1 scenario: radius 8 at `(102,100)`, two units
from the first. -/
noncomputable def eB : Enemy :=
  ⟨⟨102, 100⟩, ⟨0, 0⟩, 8, 30, 30, 60, 0, 0.5, 180, 8, 12, 2, 0, "basic",
    "patrol", 0, ⟨0, 0⟩, 0, false⟩

/-- The two C1 enemies start exactly 2 units apart. -/
theorem eAB_dist : Vec2.distance_to eA.pos eB.pos = 2 := by
  show Vec2.distance_to ⟨100, 100⟩ ⟨102, 100⟩ = 2
  exact distance_eval (by norm_num) (by norm_num)

/-- Pushed position of the first C1 enemy after the separation step. -/
theorem pushA_eval :
    eA.pos.add ((((eA.pos.sub eB.pos).normalize).smul
      (((eA.size + eB.size) / 2 + 5 - eA.pos.distance_to eB.pos) * 0.5)).smul 0.5) =
    (⟨97.25, 100⟩ : Vec2) := by
  have hsub : Vec2.sub eA.pos eB.pos = (⟨-2, 0⟩ : Vec2) := by
    show Vec2.sub ⟨100, 100⟩ ⟨102, 100⟩ = (⟨-2, 0⟩ : Vec2)
    unfold Vec2.sub
    norm_num
  have hlen : Vec2.length ⟨-2, 0⟩ = 2 := by
    unfold Vec2.length; exact sqrt_eval (by norm_num) (by norm_num)
  have hnorm : Vec2.normalize ⟨-2, 0⟩ = (⟨-1, 0⟩ : Vec2) := by
    unfold Vec2.normalize
    rw [hlen, if_pos (by norm_num)]
    norm_num
  rw [hsub, hnorm, eAB_dist]
  show Vec2.add ⟨100, 100⟩ _ = _
  unfold Vec2.smul Vec2.add
  have h8 : eA.size = (8:ℝ) := rfl
  have h8b : eB.size = (8:ℝ) := rfl
  rw [h8, h8b]
  norm_num

/-- Pushed position of the second C1 enemy after the separation step. -/
theorem pushB_eval :
    eB.pos.sub ((((eA.pos.sub eB.pos).normalize).smul
      (((eA.size + eB.size) / 2 + 5 - eA.pos.distance_to eB.pos) * 0.5)).smul 0.5) =
    (⟨104.75, 100⟩ : Vec2) := by
  have hsub : Vec2.sub eA.pos eB.pos = (⟨-2, 0⟩ : Vec2) := by
    show Vec2.sub ⟨100, 100⟩ ⟨102, 100⟩ = (⟨-2, 0⟩ : Vec2)
    unfold Vec2.sub
    norm_num
  have hlen : Vec2.length ⟨-2, 0⟩ = 2 := by
    unfold Vec2.length; exact sqrt_eval (by norm_num) (by norm_num)
  have hnorm : Vec2.normalize ⟨-2, 0⟩ = (⟨-1, 0⟩ : Vec2) := by
    unfold Vec2.normalize
    rw [hlen, if_pos (by norm_num)]
    norm_num
  rw [hsub, hnorm, eAB_dist]
  show Vec2.sub ⟨102, 100⟩ _ = _
  unfold Vec2.smul Vec2.sub
  have h8 : eA.size = (8:ℝ) := rfl
  have h8b : eB.size = (8:ℝ) := rfl
  rw [h8, h8b]
  norm_num

/-- In the wall-free C1 room, re-validation leaves the pushed first
position unchanged. -/
theorem validA_eval :
    roomC1.validate_position
      (eA.pos.add ((((eA.pos.sub eB.pos).normalize).smul
        (((eA.size + eB.size) / 2 + 5 - eA.pos.distance_to eB.pos) * 0.5)).smul 0.5))
      eA.size =
    eA.pos.add ((((eA.pos.sub eB.pos).normalize).smul
      (((eA.size + eB.size) / 2 + 5 - eA.pos.distance_to eB.pos) * 0.5)).smul 0.5) := by
  rw [pushA_eval]
  have h8 : eA.size = (8:ℝ) := rfl
  rw [h8]
  apply validate_no_collision
  · show (8:ℝ) / 2 + 2 ≤ 97.25; norm_num
  · show (97.25:ℝ) ≤ (25:ℕ) * 16 - (8 / 2 + 2); norm_num
  · show (8:ℝ) / 2 + 2 ≤ 100; norm_num
  · show (100:ℝ) ≤ (20:ℕ) * 16 - (8 / 2 + 2); norm_num
  · intro d hd hm
    simp [roomC1] at hm

/-- In the wall-free C1 room, re-validation leaves the pushed second
position unchanged. -/
theorem validB_eval :
    roomC1.validate_position
      (eB.pos.sub ((((eA.pos.sub eB.pos).normalize).smul
        (((eA.size + eB.size) / 2 + 5 - eA.pos.distance_to eB.pos) * 0.5)).smul 0.5))
      eB.size =
    eB.pos.sub ((((eA.pos.sub eB.pos).normalize).smul
      (((eA.size + eB.size) / 2 + 5 - eA.pos.distance_to eB.pos) * 0.5)).smul 0.5) := by
  rw [pushB_eval]
  have h8 : eB.size = (8:ℝ) := rfl
  rw [h8]
  apply validate_no_collision
  · show (8:ℝ) / 2 + 2 ≤ 104.75; norm_num
  · show (104.75:ℝ) ≤ (25:ℕ) * 16 - (8 / 2 + 2); norm_num
  · show (8:ℝ) / 2 + 2 ≤ 100; norm_num
  · show (100:ℝ) ≤ (20:ℕ) * 16 - (8 / 2 + 2); norm_num
  · intro d hd hm
    simp [roomC1] at hm

/-- The C1 pair collides within the epsilon bounds. -/
theorem eAB_bounds :
    0.1 < Vec2.distance_to eA.pos eB.pos ∧
    Vec2.distance_to eA.pos eB.pos < (eA.size + eB.size) / 2 + 5 := by
  rw [eAB_dist]
  have h8 : eA.size = (8:ℝ) := rfl
  have h8b : eB.size = (8:ℝ) := rfl
  rw [h8, h8b]
  norm_num

/-- The separation pass on the two C1 enemies reduces to a single
`sepPair` evaluated at the pushed positions. -/
theorem sep_pass_eval :
    roomC1.enemy_separation [eA, eB] =
      [{ eA with pos := ⟨97.25, 100⟩ }, { eB with pos := ⟨104.75, 100⟩ }] := by
  have hpair : sepPair roomC1 eA eB =
      ({ eA with pos := ⟨97.25, 100⟩ }, { eB with pos := ⟨104.75, 100⟩ }) := by
    rw [sepPair_eval roomC1 eA eB eAB_bounds.1 eAB_bounds.2 validA_eval validB_eval]
    rw [pushA_eval, pushB_eval]
  have hpass : roomC1.enemy_separation [eA, eB] =
      ([eA, eB].set 0 (sepPair roomC1 eA eB).1).set 1 (sepPair roomC1 eA eB).2 := rfl
  rw [hpass, hpair]
  rfl

/-- Counterexample to C1 as stated: the two radius-8 enemies placed 2
units apart end the separation pass at `(97.25,100)` and `(104.75,100)`,
a separation of 7.5 — not at least 13.  Each enemy moved 2.75 units, a
quarter of the 11-unit penetration, not half. -/
theorem separation_scenario3_counterexample :
    Vec2.distance_to eA.pos eB.pos = 2 ∧ eA.size = 8 ∧ eB.size = 8 ∧
    (roomC1.enemy_separation [eA, eB]).map Enemy.pos =
      [⟨97.25, 100⟩, ⟨104.75, 100⟩] ∧
    Vec2.distance_to ⟨97.25, 100⟩ ⟨104.75, 100⟩ = 7.5 ∧
    ¬ (13 ≤ (7.5 : ℝ)) := by
  refine ⟨eAB_dist, rfl, rfl, ?_, ?_, by norm_num⟩
  · rw [sep_pass_eval]
    rfl
  · exact distance_eval (by norm_num) (by norm_num)

/-- Witness for the amended C1 at the concrete scenario: separation
after the pair step is `(2 + 13)/2 = 7.5`. -/
theorem sepPair_separation_witness :
    0.1 < Vec2.distance_to eA.pos eB.pos ∧
    ((sepPair roomC1 eA eB).1.pos).distance_to ((sepPair roomC1 eA eB).2.pos) =
      (Vec2.distance_to eA.pos eB.pos + ((eA.size + eB.size) / 2 + 5)) / 2 :=
  ⟨eAB_bounds.1,
    sepPair_separation roomC1 eA eB eAB_bounds.1 eAB_bounds.2 validA_eval validB_eval⟩

/-- Embedding of `Enemy.take_damage`: clamp health at 0 and report
whether the enemy died. -/
noncomputable def Enemy.take_damage (amount : ℝ) (e : Enemy) : Enemy × Bool :=
  let e1 := { e with health := max 0 (e.health - amount) }
  (e1, decide (e1.health ≤ 0))

/-- Inner loop of `Room.check_collisions` for one player bullet: scan
the enemy list in order; on the first enemy within
`enemy.size + bullet.size`, apply damage (removing the enemy and paying
the `randint(2,8)` reward `reward` on a kill), stop scanning (`break`),
and report the hit.  Returns the updated enemy list, the hit flag, the
money gained and the kill count. -/
noncomputable def bullet_vs_enemies (b : Bullet) (reward : ℤ) :
    List Enemy → List Enemy × Bool × ℤ × ℕ
  | [] => ([], false, 0, 0)
  | e :: rest =>
    if b.pos.distance_to e.pos < e.size + b.size then
      let r := Enemy.take_damage b.damage e
      if r.2 then (rest, true, reward, 1)
      else (r.1 :: rest, true, 0, 0)
    else
      let t := bullet_vs_enemies b reward rest
      (e :: t.1, t.2.1, t.2.2.1, t.2.2.2)

/-- Outer loop of the player-bullet phase of `Room.check_collisions`:
process the snapshot of bullets in order against the evolving enemy
list; a bullet that hit is removed from the surviving bullet list.
`rng k` is the money reward drawn for the `k`-th bullet. -/
noncomputable def player_bullets_pass (rng : ℕ → ℤ) :
    ℕ → List Bullet → List Enemy → List Bullet × List Enemy × ℤ × ℕ
  | _, [], es => ([], es, 0, 0)
  | k, b :: bs, es =>
    let r := bullet_vs_enemies b (rng k) es
    let t := player_bullets_pass rng (k + 1) bs r.1
    (if r.2.1 then t.1 else b :: t.1, t.2.1, r.2.2.1 + t.2.2.1, r.2.2.2 + t.2.2.2)

/-- C4: within one collision pass a player bullet damages at most one
enemy: either no enemy is in range (enemy list unchanged, bullet kept),
or the list splits around the first enemy in range — everything before
it missed and is untouched, that one enemy alone is damaged (removed if
killed), scanning stops there — and the hit bullet is consumed, not
re-tested or kept in the room's projectile collection. -/
theorem bullet_damages_at_most_one (b : Bullet) (reward : ℤ) (es : List Enemy) :
    (((bullet_vs_enemies b reward es).1 = es ∧
      (bullet_vs_enemies b reward es).2.1 = false ∧
      ∀ e ∈ es, ¬ (b.pos.distance_to e.pos < e.size + b.size)) ∨
     (∃ pre e post, es = pre ++ e :: post ∧
      (∀ x ∈ pre, ¬ (b.pos.distance_to x.pos < x.size + b.size)) ∧
      (b.pos.distance_to e.pos < e.size + b.size) ∧
      (bullet_vs_enemies b reward es).2.1 = true ∧
      (((Enemy.take_damage b.damage e).2 = true ∧
        (bullet_vs_enemies b reward es).1 = pre ++ post) ∨
       ((Enemy.take_damage b.damage e).2 = false ∧
        (bullet_vs_enemies b reward es).1 =
          pre ++ (Enemy.take_damage b.damage e).1 :: post)))) ∧
    ∀ (rng : ℕ → ℤ) (k : ℕ) (bs : List Bullet),
      (player_bullets_pass rng k (b :: bs) es).1 =
        (if (bullet_vs_enemies b (rng k) es).2.1 then
          (player_bullets_pass rng (k + 1) bs (bullet_vs_enemies b (rng k) es).1).1
        else
          b :: (player_bullets_pass rng (k + 1) bs
            (bullet_vs_enemies b (rng k) es).1).1) := by
  constructor
  · induction es with
    | nil =>
      left
      exact ⟨rfl, rfl, fun e he => absurd he (List.not_mem_nil e)⟩
    | cons e rest ih =>
      by_cases hhit : b.pos.distance_to e.pos < e.size + b.size
      · right
        refine ⟨[], e, rest, rfl, by simp, hhit, ?_, ?_⟩
        · simp only [bullet_vs_enemies, if_pos hhit]
          by_cases hk : (Enemy.take_damage b.damage e).2 = true
          · rw [if_pos hk]
          · rw [if_neg hk]
        · by_cases hk : (Enemy.take_damage b.damage e).2 = true
          · left
            refine ⟨hk, ?_⟩
            simp only [bullet_vs_enemies, if_pos hhit, if_pos hk, List.nil_append]
          · right
            refine ⟨Bool.not_eq_true _ |>.mp hk, ?_⟩
            simp only [bullet_vs_enemies, if_pos hhit, if_neg hk, List.nil_append]
      · rcases ih with ⟨h1, h2, h3⟩ | ⟨pre, x, post, heq, hpre, hx, hflag, hrest⟩
        · left
          refine ⟨?_, ?_, ?_⟩
          · simp only [bullet_vs_enemies, if_neg hhit]
            rw [h1]
          · simp only [bullet_vs_enemies, if_neg hhit]
            exact h2
          · intro y hy
            rcases List.mem_cons.mp hy with rfl | hy2
            · exact hhit
            · exact h3 y hy2
        · right
          refine ⟨e :: pre, x, post, by rw [heq]; rfl, ?_, hx, ?_, ?_⟩
          · intro y hy
            rcases List.mem_cons.mp hy with rfl | hy2
            · exact hhit
            · exact hpre y hy2
          · simp only [bullet_vs_enemies, if_neg hhit]
            exact hflag
          · rcases hrest with ⟨hk, hres⟩ | ⟨hk, hres⟩
            · left
              refine ⟨hk, ?_⟩
              simp only [bullet_vs_enemies, if_neg hhit]
              rw [hres]
              simp
            · right
              refine ⟨hk, ?_⟩
              simp only [bullet_vs_enemies, if_neg hhit]
              rw [hres]
              simp
  · intro rng k bs
    rfl

/-- Kind of a room in the level graph, standing for the Python class of
the `Room` object held in `MultiRoomSystem.rooms` (`isinstance`
dispatch). -/
inductive RoomKind where
  | combat : RoomKind
  | hazard : RoomKind
  | boss : RoomKind
deriving DecidableEq

/-- Embedding of one wave dict of `generate_enemy_waves`. -/
structure WaveData where
  enemy_count : ℕ
  enemy_types : List String
  weights : List ℕ
  spawned : Bool
  cleared : Bool

/-- Embedding of class `MultiRoomSystem`.  The `rooms` dict is
represented by the kind of each room (`room_kinds`); the tile/enemy
state inside each room lives in the separately-embedded `Room`
functions and is observed through a `RoomObs` oracle during `update`. -/
structure MultiRoomSystem where
  level : ℕ
  room_kinds : List (String × RoomKind)
  room_connections : List (String × List String)
  doors : List (String × Door)
  current_room_id : String
  rooms_cleared : Finset String
  total_rooms : ℕ
  teleporter_active : Bool
  enemy_waves : List (String × List WaveData)
  current_wave : List (String × ℕ)

/-- Observations of the parts of one `MultiRoomSystem.update` tick that
happen outside the level-graph state: the player position (for door
proximity), the active room's `challenge_complete` flag and enemy count
after `current_room.update`, the number of enemies
`spawn_enemy_wave` manages to place, and the `current_room_id`
resulting from `check_room_transitions`. -/
structure RoomObs where
  playerPos : Vec2
  challengeComplete : Bool
  postEnemyCount : ℕ
  spawnCount : ℕ
  nextRoomId : String

/-- Embedding of a Python dict `get` on a string-keyed dict represented
as an association list. -/
def alist_get {α : Type} (k : String) : List (String × α) → Option α
  | [] => none
  | (a, v) :: t => if a = k then some v else alist_get k t

/-- In-place update of the entry at key `k` of a string-keyed dict. -/
def alist_update {α : Type} (k : String) (f : α → α) (l : List (String × α)) :
    List (String × α) :=
  l.map (fun p => if p.1 = k then (p.1, f p.2) else p)

/-- Embedding of `MultiRoomSystem.handle_enemy_waves`: spawn the current
wave when the room is empty and it was not yet spawned; mark it cleared
once spawned with the room empty again, advancing the wave index and
adding the room to `rooms_cleared` after its last wave. -/
def handle_enemy_waves (obs : RoomObs) (s : MultiRoomSystem) : MultiRoomSystem :=
  let room_waves := (alist_get s.current_room_id s.enemy_waves).getD []
  let idx := (alist_get s.current_room_id s.current_wave).getD 0
  if h : idx < room_waves.length then
    let wave := room_waves.get ⟨idx, h⟩
    let wave1 := if wave.spawned = false ∧ obs.postEnemyCount = 0 then
        { wave with spawned := true } else wave
    let count1 := if wave.spawned = false ∧ obs.postEnemyCount = 0 then
        obs.postEnemyCount + obs.spawnCount else obs.postEnemyCount
    let waves1 := alist_update s.current_room_id
      (fun (ws : List WaveData) => ws.set idx wave1) s.enemy_waves
    let s1 := { s with enemy_waves := waves1 }
    if wave1.spawned = true ∧ count1 = 0 ∧ wave1.cleared = false then
      let wave2 := { wave1 with cleared := true }
      let waves2 := alist_update s.current_room_id
        (fun (ws : List WaveData) => ws.set idx wave2) s1.enemy_waves
      let next_wave := alist_update s.current_room_id
        (fun (n : ℕ) => n + 1) s1.current_wave
      let s2 := { s1 with enemy_waves := waves2, current_wave := next_wave }
      if room_waves.length ≤ idx + 1 then
        { s2 with rooms_cleared := insert s.current_room_id s2.rooms_cleared }
      else s2
    else s1
  else s

/-- Embedding of `MultiRoomSystem.update`: advance the active room
(summarized by `obs`), animate all doors by player proximity, run the
hazard-completion or wave bookkeeping for the active room, apply the
room transition, then activate the teleporter when all rooms are
cleared. -/
noncomputable def MultiRoomSystem.update (dt : ℝ) (obs : RoomObs)
    (s : MultiRoomSystem) : MultiRoomSystem :=
  let new_doors := s.doors.map (fun (p : String × Door) =>
    (p.1, Door.update dt (decide (p.2.pos.distance_to obs.playerPos < 50)) p.2))
  let s0 := { s with doors := new_doors }
  let s1 :=
    match alist_get s0.current_room_id s0.room_kinds with
    | some RoomKind.hazard =>
      if obs.challengeComplete = true ∧ s0.current_room_id ∉ s0.rooms_cleared then
        { s0 with rooms_cleared := insert s0.current_room_id s0.rooms_cleared }
      else s0
    | some _ =>
      if s0.current_room_id ≠ "boss_room" then handle_enemy_waves obs s0 else s0
    | none => s0
  let s2 := { s1 with current_room_id := obs.nextRoomId }
  if s2.total_rooms ≤ s2.rooms_cleared.card ∧ s2.teleporter_active = false then
    { s2 with teleporter_active := true }
  else s2

/-- `handle_enemy_waves` never touches the teleporter flag or the room
total, and can only add the active room to `rooms_cleared`. -/
theorem handle_enemy_waves_fields (obs : RoomObs) (s : MultiRoomSystem) :
    (handle_enemy_waves obs s).teleporter_active = s.teleporter_active ∧
    (handle_enemy_waves obs s).total_rooms = s.total_rooms ∧
    s.rooms_cleared ⊆ (handle_enemy_waves obs s).rooms_cleared := by
  simp only [handle_enemy_waves]
  by_cases h : (alist_get s.current_room_id s.current_wave).getD 0 <
      ((alist_get s.current_room_id s.enemy_waves).getD []).length
  · simp only [dif_pos h]
    split_ifs <;> refine ⟨rfl, rfl, ?_⟩ <;> simp [Finset.subset_insert]
  · rw [dif_neg h]
    exact ⟨rfl, rfl, Finset.Subset.refl _⟩

/-- C5: over one `update` of a `MultiRoomSystem`, `teleporter_active`
ends true exactly when it was already true or the cleared-room count has
reached `total_rooms`; `rooms_cleared` only grows.  Hence the flag flips
false→true at most once — the first tick the threshold is reached — and
never reverts, even if room ids were (hypothetically) removed from
`rooms_cleared` between ticks. -/
theorem teleporter_activation_spec (dt : ℝ) (obs : RoomObs)
    (s : MultiRoomSystem) :
    ((MultiRoomSystem.update dt obs s).teleporter_active = true ↔
      (s.teleporter_active = true ∨
        s.total_rooms ≤ (MultiRoomSystem.update dt obs s).rooms_cleared.card)) ∧
    s.rooms_cleared ⊆ (MultiRoomSystem.update dt obs s).rooms_cleared := by
  simp only [MultiRoomSystem.update]
  set s0 : MultiRoomSystem := { s with doors := s.doors.map (fun p =>
    (p.1, Door.update dt (decide (p.2.pos.distance_to obs.playerPos < 50)) p.2)) }
    with hs0
  set s1 : MultiRoomSystem :=
    match alist_get s0.current_room_id s0.room_kinds with
    | some RoomKind.hazard =>
      if obs.challengeComplete = true ∧ s0.current_room_id ∉ s0.rooms_cleared then
        { s0 with rooms_cleared := insert s0.current_room_id s0.rooms_cleared }
      else s0
    | some _ =>
      if s0.current_room_id ≠ "boss_room" then handle_enemy_waves obs s0 else s0
    | none => s0
    with hs1
  have hcases : s1 = s0 ∨
      s1 = { s0 with rooms_cleared := insert s0.current_room_id s0.rooms_cleared } ∨
      s1 = handle_enemy_waves obs s0 := by
    rw [hs1]
    rcases alist_get s0.current_room_id s0.room_kinds with - | k
    · exact Or.inl rfl
    · cases k with
      | combat =>
        show ((if s0.current_room_id ≠ "boss_room" then handle_enemy_waves obs s0
            else s0) = s0) ∨
          ((if s0.current_room_id ≠ "boss_room" then handle_enemy_waves obs s0
            else s0) =
            { s0 with rooms_cleared := insert s0.current_room_id s0.rooms_cleared }) ∨
          ((if s0.current_room_id ≠ "boss_room" then handle_enemy_waves obs s0
            else s0) = handle_enemy_waves obs s0)
        by_cases hb : s0.current_room_id ≠ "boss_room"
        · rw [if_pos hb]
          exact Or.inr (Or.inr rfl)
        · rw [if_neg hb]
          exact Or.inl rfl
      | hazard =>
        show ((if obs.challengeComplete = true ∧ s0.current_room_id ∉ s0.rooms_cleared
            then { s0 with rooms_cleared := insert s0.current_room_id s0.rooms_cleared }
            else s0) = s0) ∨
          ((if obs.challengeComplete = true ∧ s0.current_room_id ∉ s0.rooms_cleared
            then { s0 with rooms_cleared := insert s0.current_room_id s0.rooms_cleared }
            else s0) =
            { s0 with rooms_cleared := insert s0.current_room_id s0.rooms_cleared }) ∨
          ((if obs.challengeComplete = true ∧ s0.current_room_id ∉ s0.rooms_cleared
            then { s0 with rooms_cleared := insert s0.current_room_id s0.rooms_cleared }
            else s0) = handle_enemy_waves obs s0)
        by_cases hb : obs.challengeComplete = true ∧ s0.current_room_id ∉ s0.rooms_cleared
        · rw [if_pos hb]
          exact Or.inr (Or.inl rfl)
        · rw [if_neg hb]
          exact Or.inl rfl
      | boss =>
        show ((if s0.current_room_id ≠ "boss_room" then handle_enemy_waves obs s0
            else s0) = s0) ∨
          ((if s0.current_room_id ≠ "boss_room" then handle_enemy_waves obs s0
            else s0) =
            { s0 with rooms_cleared := insert s0.current_room_id s0.rooms_cleared }) ∨
          ((if s0.current_room_id ≠ "boss_room" then handle_enemy_waves obs s0
            else s0) = handle_enemy_waves obs s0)
        by_cases hb : s0.current_room_id ≠ "boss_room"
        · rw [if_pos hb]
          exact Or.inr (Or.inr rfl)
        · rw [if_neg hb]
          exact Or.inl rfl
  have h1 : s1.teleporter_active = s.teleporter_active ∧
      s1.total_rooms = s.total_rooms ∧
      s.rooms_cleared ⊆ s1.rooms_cleared := by
    rcases hcases with hE | hE | hE <;> rw [hE]
    · exact ⟨rfl, rfl, Finset.Subset.refl _⟩
    · exact ⟨rfl, rfl, Finset.subset_insert _ _⟩
    · exact ⟨(handle_enemy_waves_fields obs s0).1,
        (handle_enemy_waves_fields obs s0).2.1,
        (handle_enemy_waves_fields obs s0).2.2⟩
  split_ifs with hc
  · refine ⟨?_, h1.2.2⟩
    constructor
    · intro _
      right
      exact le_of_eq_of_le h1.2.1.symm hc.1
    · intro _
      rfl
  · rw [not_and_or] at hc
    refine ⟨?_, h1.2.2⟩
    constructor
    · intro hact
      left
      exact h1.1.symm.trans hact
    · intro hor
      rcases hor with hact | hcard
      · exact h1.1.trans hact
      · rcases hc with hc1 | hc2
        · exact absurd (le_of_eq_of_le h1.2.1 hcard) hc1
        · simpa using hc2

end Gungeon
